import Mathlib

/-!
# A verification development for the Workday form-mapper crawler

This file gives a shallow embedding, in Lean 4, of the extraction,
classification and crawl engine of `workday_scraper.py`, and proves (or
refutes) a fixed collection of claims about it.

Browser interactions are modelled by data: every browser call a source
function makes (`get_attribute`, `query_selector`, `inner_text`,
`is_visible`, ...) becomes a field of a record describing the control or
the page, holding the value that call would return.  `None` results of
probe calls are `Option.none`; Python truthiness of attribute strings
(where the empty string is falsy) is modelled explicitly.  The
session-dependent `abs(hash(str(element)))` used for synthesized ids is
threaded as an explicit function parameter `hf : String → Nat`.

The only deliberate deviation from straight-line translation is that the
Python exception `NameError` that `_find_element_label` raises on its
final fallback line (the f-string references the undefined name
`input_type`) is modelled by returning `Option.none`; callers that wrap
the call in `try/except` treat that `none` exactly as the source treats
the caught/propagated exception.
-/

namespace WorkdayScraper

/-! ## Python-flavoured string helpers -/

/-- Python truthiness of an optional attribute string: `None` and `""` are falsy. -/
def truthy : Option String → Bool
  | some s => s ≠ ""
  | none => false

/-- `a if a truthy else default`: first operand of a Python `or` chain. -/
def pyOr (o : Option String) (d : String) : String :=
  match o with
  | some s => if s ≠ "" then s else d
  | none => d

/-- Python `str.lower()` (ASCII). -/
def pyLower (s : String) : String := ⟨s.data.map Char.toLower⟩

/-- Python `str.strip()`: drop whitespace from both ends. -/
def pyStrip (s : String) : String :=
  ⟨((s.data.dropWhile Char.isWhitespace).reverse.dropWhile Char.isWhitespace).reverse⟩

/-- Does the second list start with the first? -/
def strStartsList : List Char → List Char → Bool
  | [], _ => true
  | _ :: _, [] => false
  | a :: as, b :: bs => a == b && strStartsList as bs

/-- Does the needle occur inside the haystack? -/
def hasInfixList (needle : List Char) : List Char → Bool
  | [] => strStartsList needle []
  | b :: bs => strStartsList needle (b :: bs) || hasInfixList needle bs

/-- Substring test: Python `needle in hay`. -/
def strContains (hay needle : String) : Bool :=
  hasInfixList needle.data hay.data

/-- Python `str.endswith(c)` for a single character. -/
def pyEndsWith (s : String) (c : Char) : Bool :=
  s.data.getLast? = some c

/-- Single-character split loop over characters. -/
def splitChList (sep : Char) : List Char → List Char → List String
  | [], acc => [⟨acc.reverse⟩]
  | c :: rest, acc =>
    if c = sep then ⟨acc.reverse⟩ :: splitChList sep rest []
    else splitChList sep rest (c :: acc)

/-- Python `str.split(',')`. -/
def pySplitComma (s : String) : List String := splitChList ',' s.data []

/-- Python `str.split('\n')`. -/
def pySplitLines (s : String) : List String := splitChList '\n' s.data []

/-- One step of Python `str.title()`: uppercase a letter not preceded by a letter,
lowercase a letter preceded by one. -/
def pyTitleAux : Bool → List Char → List Char
  | _, [] => []
  | prevAlpha, c :: cs =>
    (if c.isAlpha then (if prevAlpha then c.toLower else c.toUpper) else c) ::
      pyTitleAux c.isAlpha cs

/-- Python `str.title()` restricted to ASCII letters. -/
def pyTitle (s : String) : String := ⟨pyTitleAux false s.data⟩

/-- `re.sub(r'\s+', ' ', s)`: collapse every whitespace run to one space. -/
def normWsAux : Bool → List Char → List Char
  | _, [] => []
  | inWs, c :: cs =>
    if c.isWhitespace then
      if inWs then normWsAux true cs else ' ' :: normWsAux true cs
    else c :: normWsAux false cs

def normWs (s : String) : String := ⟨normWsAux false s.data⟩

/-- `re.sub(r'[_-]', ' ', s)`. -/
def sepToSpace (s : String) : String :=
  ⟨s.data.map fun c => if c = '_' ∨ c = '-' then ' ' else c⟩

/-- `re.sub(r'([a-z])([A-Z])', r'\1 \2', s)`: break a lower→upper boundary. -/
def camelSplitAux : List Char → List Char
  | [] => []
  | [c] => [c]
  | a :: b :: rest =>
    if a.isLower ∧ b.isUpper then a :: ' ' :: camelSplitAux (b :: rest)
    else a :: camelSplitAux (b :: rest)

def camelSplit (s : String) : String := ⟨camelSplitAux s.data⟩

/-! ## Data model

`FormElement` is the dataclass of the source, field for field. -/

structure FormElement where
  label : String
  id_of_input_component : String
  required : Bool
  type_of_input : String
  options : Option (List String) := none
  user_data_select_values : Option (List String) := none
deriving Repr, DecidableEq

/-- Result of one of the seven `workday_label_selectors` probes of label
strategy 4 (and of the per-level label queries of strategy 5): the queried
element's visibility and inner text.  `none` models "no element found" and
a raised probe error alike, since both are swallowed by the per-probe
`try/except`. -/
structure WdLabelHit where
  visible : Bool
  text : String
deriving Repr, DecidableEq

/-- One ancestor level of label strategy 5: the label-like descendants the
`query_selector_all` on that parent returns, in order. -/
structure AncLevel where
  labels : List WdLabelHit
deriving Repr, DecidableEq

/-- Parent-element probe results used by `_is_element_required` strategy 3. -/
structure ParentReq where
  /-- `parent.query_selector_all('.wd-required, ...')` returned a non-empty list. -/
  hasRequiredIndicators : Bool
  /-- `parent.inner_html()`. -/
  innerHtml : String
  /-- `parent.get_attribute('class')`. -/
  classAttr : Option String
deriving Repr, DecidableEq

/-- One native `<option>` entry: its inner text and `value` attribute. -/
structure OptionEntry where
  text : String
  value : Option String
deriving Repr, DecidableEq

/-- One element matched by a popup/typeahead option selector. -/
structure PopupHit where
  visible : Bool
  text : String
deriving Repr, DecidableEq

/-- Probe results for `_get_select_options` on one control: the native
`option` children, then per popup selector category the matched elements,
then per typeahead selector category the matched suggestions. -/
structure SelectProbe where
  nativeOptions : List OptionEntry
  popupCats : List (List PopupHit)
  typeaheadCats : List (List PopupHit)
deriving Repr, DecidableEq

/-- A form control as the extraction pipeline observes it: one field per
browser call the source makes on the element (or on elements derived from
it by the fixed label/requiredness probes). -/
structure Ctrl where
  visible : Bool
  disabled : Bool
  ariaLabel : Option String
  ariaLabelledby : Option String
  /-- inner text of `page.query_selector('#' + aria-labelledby)`, when found. -/
  labelledbyText : Option String
  /-- `get_attribute('id')`. -/
  domId : Option String
  /-- inner text of `label[for="<id>"]`, when found. -/
  forLabelText : Option String
  /-- results of the seven `workday_label_selectors`, in order. -/
  wdLabels : List (Option WdLabelHit)
  /-- ancestor levels walked by label strategy 5 (the walk stops when a
  parent query fails, so the list holds the levels that exist). -/
  ancestors : List AncLevel
  placeholder : Option String
  /-- `parent.inner_text()` used by label strategy 7, when the parent exists. -/
  parentText : Option String
  typeAttr : Option String
  nameAttr : Option String
  automationId : Option String
  requiredAttr : Option String
  ariaRequired : Option String
  classAttr : Option String
  parentReq : Option ParentReq
  valueAttr : Option String
  multipleAttr : Option String
  acceptAttr : Option String
  selectProbe : SelectProbe
  /-- `str(element)`, fed to the synthesized-id hash fallback. -/
  hashStr : String
deriving Repr, DecidableEq

/-- A control with every probe empty, used as a base to build concrete
test controls by record update. -/
def blankCtrl : Ctrl where
  visible := true
  disabled := false
  ariaLabel := none
  ariaLabelledby := none
  labelledbyText := none
  domId := none
  forLabelText := none
  wdLabels := []
  ancestors := []
  placeholder := none
  parentText := none
  typeAttr := none
  nameAttr := none
  automationId := none
  requiredAttr := none
  ariaRequired := none
  classAttr := none
  parentReq := none
  valueAttr := none
  multipleAttr := none
  acceptAttr := none
  selectProbe := ⟨[], [], []⟩
  hashStr := ""

/-! ## LabelResolver: `_find_element_label`

The source method returns a string normally, but its two last return
statements evaluate the undefined name `input_type` inside an f-string.
When `element_type or input_type` short-circuits (the `type` attribute is
truthy) the name is never looked up and the fallback string is produced;
otherwise a `NameError` is raised, the `except` clause re-raises the same
`NameError` from its own f-string, and the exception escapes to the
caller.  We model the normal returns as `some label` and the escaped
`NameError` as `none`. -/

/-- Text acceptance used by strategies 4 and 5: trimmed length strictly
between 5 and 200. -/
def midLen (t : String) : Bool := 5 < (pyStrip t).length ∧ (pyStrip t).length < 200

/-- Strategy 4: first of the seven Workday label probes that found a
visible element with acceptably sized text. -/
def wdLabelScan : List (Option WdLabelHit) → Option String
  | [] => none
  | none :: rest => wdLabelScan rest
  | some h :: rest =>
    if h.visible ∧ midLen h.text then some (pyStrip h.text) else wdLabelScan rest

/-- Strategy 5 inner loop: first visible label with acceptably sized text
among one ancestor level's label-like descendants. -/
def ancLabelScan : List WdLabelHit → Option String
  | [] => none
  | h :: rest =>
    if h.visible ∧ midLen h.text then some (pyStrip h.text) else ancLabelScan rest

/-- Strategy 5 outer loop: walk up to 4 ancestor levels. -/
def ancestorScan (levels : List AncLevel) : Option String :=
  (levels.take 4).foldl
    (fun acc lvl => match acc with
      | some t => some t
      | none => ancLabelScan lvl.labels) none

/-- Strategy 7: first line of the parent's inner text that, after
whitespace normalisation, looks like a question or an instruction. -/
def questionLineScan (parentText : String) : Option String :=
  (pySplitLines parentText).foldl
    (fun acc line => match acc with
      | some t => some t
      | none =>
        let clean := pyStrip (normWs line)
        if (5 < clean.length ∧ clean.length < 150) ∧
           (pyEndsWith clean '?' ∨ pyEndsWith clean ':' ∨
            strContains (pyLower clean) "enter" ∨ strContains (pyLower clean) "select" ∨
            strContains (pyLower clean) "choose" ∨ strContains (pyLower clean) "provide")
        then some clean else none) none

/-- Strategy 8 helper: separators to spaces, camel boundary to space, title case. -/
def readableName (s : String) : String := pyTitle (camelSplit (sepToSpace s))

/-- `_find_element_label`.  `none` models the `NameError` the source
raises when every strategy fails and the element has no truthy `type`
attribute (the fallback f-strings reference the undefined `input_type`). -/
def find_element_label (e : Ctrl) : Option String :=
  -- Strategy 1: aria-label
  if truthy (e.ariaLabel.map pyStrip) then e.ariaLabel.map pyStrip
  -- Strategy 2: aria-labelledby
  else if truthy e.ariaLabelledby ∧ truthy (e.labelledbyText.map pyStrip) then
    e.labelledbyText.map pyStrip
  -- Strategy 3: associated label element via for/id
  else if truthy e.domId ∧ truthy (e.forLabelText.map pyStrip) then
    e.forLabelText.map pyStrip
  else match wdLabelScan e.wdLabels with     -- Strategy 4
  | some t => some t
  | none => match ancestorScan e.ancestors with  -- Strategy 5
    | some t => some t
    | none =>
      -- Strategy 6: placeholder
      if truthy (e.placeholder.map pyStrip) then
        (e.placeholder.map pyStrip).map ("Field: " ++ ·)
      else match e.parentText.bind (fun t => if t ≠ "" then questionLineScan t else none) with
      | some t => some t                      -- Strategy 7
      | none =>
        -- Strategy 8: automation id, then name attribute
        if truthy e.automationId ∧ 5 < (pyOr e.automationId "").length then
          some (readableName (pyOr e.automationId ""))
        else if truthy e.nameAttr then
          some (readableName (pyOr e.nameAttr ""))
        -- Final fallback: f-string over `element_type or input_type`; the
        -- second disjunct is an undefined name, so it only returns when
        -- the type attribute is truthy, and raises NameError otherwise.
        else if truthy e.typeAttr then
          some ("Unnamed " ++ pyOr e.typeAttr "" ++ " field")
        else none

/-! ## RequirednessResolver: `_is_element_required` -/

def is_element_required (e : Ctrl) : Bool :=
  if e.requiredAttr.isSome then true
  else if e.ariaRequired = some "true" then true
  else if strContains (pyLower (pyOr e.classAttr "")) "required" then true
  else match e.parentReq with
    | none => false
    | some p =>
      if p.hasRequiredIndicators then true
      else if p.innerHtml ≠ "" ∧
              (strContains p.innerHtml "*" ∨ strContains (pyLower p.innerHtml) "required")
      then true
      else if strContains (pyLower (pyOr p.classAttr "")) "required" then true
      else false

/-! ## OptionsResolver: `_get_select_options` -/

/-- Text chosen for a native option: prefer inner text over `value`. -/
def optionText (o : OptionEntry) : String :=
  if o.text ≠ "" then pyStrip o.text else pyStrip (pyOr o.value "")

/-- Placeholder sentinels discarded on the native path. -/
def nativeSentinels : List String :=
  ["", "select...", "choose...", "please select", "-- select --", "select an option"]

/-- Native-path loop: keep each non-placeholder option text, in order. -/
def collectNativeGo : List OptionEntry → List String → List String
  | [], acc => acc
  | o :: rest, acc =>
    if optionText o ≠ "" ∧ ¬ nativeSentinels.contains (pyLower (optionText o)) then
      collectNativeGo rest (acc ++ [optionText o])
    else collectNativeGo rest acc

/-- Native path: keep each non-placeholder option text, in order. -/
def collectNative (entries : List OptionEntry) : List String :=
  collectNativeGo entries []

/-- Sentinels discarded on the popup path. -/
def popupSentinels : List String := ["select...", "choose...", "loading..."]

/-- Popup path, one selector category: first 20 matches, visible, non-empty,
short, not yet collected, not a loading placeholder. -/
def collectPopupCat (acc : List String) (cat : List PopupHit) : List String :=
  (cat.take 20).foldl
    (fun a h =>
      let t := pyStrip h.text
      if h.visible ∧ h.text ≠ "" ∧ t ≠ "" ∧ t.length < 100 ∧ ¬ a.contains t ∧
         ¬ popupSentinels.contains (pyLower t)
      then a ++ [t] else a) acc

/-- Popup path over the selector categories: a category with no matches is
skipped; the scan stops at the first category that leaves the collection
non-empty. -/
def popupLoop (acc : List String) : List (List PopupHit) → List String
  | [] => acc
  | cat :: rest =>
    if cat = [] then popupLoop acc rest
    else
      let acc' := collectPopupCat acc cat
      if acc' ≠ [] then acc' else popupLoop acc' rest

/-- Typeahead path, one suggestion category: first 10 matches, visible,
non-empty, short (no dedup, no sentinel filter). -/
def collectTypeCat (acc : List String) (cat : List PopupHit) : List String :=
  (cat.take 10).foldl
    (fun a h =>
      let t := pyStrip h.text
      if h.visible ∧ h.text ≠ "" ∧ t ≠ "" ∧ t.length < 100 then a ++ [t] else a) acc

/-- Typeahead path over the suggestion categories, stopping once non-empty. -/
def typeLoop (acc : List String) : List (List PopupHit) → List String
  | [] => acc
  | cat :: rest =>
    let acc' := collectTypeCat acc cat
    if acc' ≠ [] then acc' else typeLoop acc' rest

/-- The dedup loop of `_get_select_options`, threading the seen set. -/
def dedupCapGo : List String → List String → List String
  | [], acc => acc
  | o :: rest, acc =>
    if o ≠ "" ∧ ¬ acc.contains o then dedupCapGo rest (acc ++ [o])
    else dedupCapGo rest acc

/-- Final pass of `_get_select_options`: order-preserving dedup (dropping
falsy entries), capped at the first 15. -/
def dedupCap (l : List String) : List String :=
  (dedupCapGo l []).take 15

/-- `_get_select_options`: native options when the control has `option`
children, otherwise the popup scan, otherwise the typeahead scan (run on
the still-empty collection); then dedup and cap. -/
def get_select_options (sp : SelectProbe) : List String :=
  dedupCap
    (if sp.nativeOptions ≠ [] then collectNative sp.nativeOptions
     else
       if popupLoop [] sp.popupCats = [] then
         typeLoop (popupLoop [] sp.popupCats) sp.typeaheadCats
       else popupLoop [] sp.popupCats)

/-! ## SampleValueSynthesizer -/

/-- `_generate_sample_text_value`. -/
def generate_sample_text_value (label : String) (e : Ctrl) : String :=
  let ll := pyLower label
  let it := pyOr e.typeAttr "text"
  if strContains ll "email" ∨ it = "email" then "test@example.com"
  else if strContains ll "phone" ∨ strContains ll "mobile" ∨ strContains ll "tel" then
    "+1-555-123-4567"
  else if strContains ll "first name" ∨ strContains ll "given name" then "John"
  else if strContains ll "last name" ∨ strContains ll "family name" ∨
          strContains ll "surname" then "Doe"
  else if strContains ll "name" ∨ strContains ll "applicant" then "John Doe"
  else if strContains ll "address" then
    (if strContains ll "line 2" ∨ strContains ll "apt" then "Apt 123" else "123 Main Street")
  else if strContains ll "city" then "New York"
  else if strContains ll "state" ∨ strContains ll "province" then "NY"
  else if strContains ll "zip" ∨ strContains ll "postal" then "10001"
  else if it = "number" ∨ strContains ll "years" ∨ strContains ll "salary" ∨
          strContains ll "gpa" then "5"
  else if it = "url" ∨ strContains ll "website" ∨ strContains ll "url" then
    "https://example.com"
  else "Sample Text"

/-- `_generate_sample_date`. -/
def generate_sample_date (label : String) : String :=
  let ll := pyLower label
  if strContains ll "birth" ∨ strContains ll "born" ∨ strContains ll "dob" then "1990-01-15"
  else if strContains ll "start" ∨ strContains ll "begin" ∨ strContains ll "from" then
    "2020-01-01"
  else if strContains ll "end" ∨ strContains ll "until" ∨ strContains ll "to" ∨
          strContains ll "finish" then "2023-12-31"
  else if strContains ll "graduation" ∨ strContains ll "graduate" ∨
          strContains ll "degree" then "2022-05-15"
  else if strContains ll "available" ∨ strContains ll "prefer" ∨
          strContains ll "earliest" then "2024-02-01"
  else "2023-06-15"

/-! ## FormElementExtractor

`_get_element_data` and the seven per-category extractors.  A page is the
per-category selector results (concatenated across the category's selector
list, as the source loop does) plus the `input[name="..."]` group query
used by the checkbox and radio extractors. -/

/-- `_get_element_data`: identifier precedence chain with the hash
fallback, then label (whose `NameError` makes the whole call return
`None`), then requiredness. -/
def get_element_data (hf : String → Nat) (e : Ctrl) (input_type : String) :
    Option FormElement :=
  let element_id :=
    pyOr e.automationId
      (pyOr e.domId
        (pyOr e.nameAttr ("element_" ++ toString (hf e.hashStr))))
  match find_element_label e with
  | none => none
  | some label =>
    some { label := label
         , id_of_input_component := element_id
         , required := is_element_required e
         , type_of_input := input_type }

structure PageModel where
  textInputs : List Ctrl
  textareaInputs : List Ctrl
  selectInputs : List Ctrl
  checkboxInputs : List Ctrl
  radioInputs : List Ctrl
  dateInputs : List Ctrl
  fileInputs : List Ctrl
  /-- `page.query_selector_all('input[name="<n>"]')`. -/
  byName : String → List Ctrl

/-- A page with no controls at all. -/
def emptyPage : PageModel where
  textInputs := []
  textareaInputs := []
  selectInputs := []
  checkboxInputs := []
  radioInputs := []
  dateInputs := []
  fileInputs := []
  byName := fun _ => []

/-- `_extract_text_inputs`. -/
def extract_text_inputs (hf : String → Nat) (p : PageModel) : List FormElement :=
  p.textInputs.filterMap fun e =>
    if e.visible ∧ ¬ e.disabled then
      match get_element_data hf e "text" with
      | some d =>
        if d.id_of_input_component ≠ "" then
          some { d with
                 user_data_select_values := some [generate_sample_text_value d.label e] }
        else none
      | none => none
    else none

/-- `_extract_textareas`. -/
def extract_textareas (hf : String → Nat) (p : PageModel) : List FormElement :=
  p.textareaInputs.filterMap fun e =>
    if e.visible ∧ ¬ e.disabled then
      match get_element_data hf e "textarea" with
      | some d =>
        if d.id_of_input_component ≠ "" then
          some { d with
                 user_data_select_values :=
                   (some ["This is sample text area content for testing purposes."]) }
        else none
      | none => none
    else none

/-- `is_multiple`: a native `multiple` attribute, or "multi" inside the
lowered automation identifier. -/
def selectIsMultiple (e : Ctrl) : Bool :=
  e.multipleAttr.isSome ∨ strContains (pyLower (pyOr e.automationId "")) "multi"

def selectInputType (e : Ctrl) : String :=
  if selectIsMultiple e then "multiselect" else "select"

/-- Attach the resolved options and, when any exist, the sample selection
(`options[:min(2 if multi else 1, len)]`). -/
def selectElemFinish (d : FormElement) (e : Ctrl) : FormElement :=
  if get_select_options e.selectProbe ≠ [] then
    { d with
      options := some (get_select_options e.selectProbe),
      user_data_select_values :=
        (some ((get_select_options e.selectProbe).take
          (min (if selectIsMultiple e then 2 else 1)
            (get_select_options e.selectProbe).length))) }
  else { d with options := some (get_select_options e.selectProbe) }

/-- `_extract_selects`. -/
def extract_selects (hf : String → Nat) (p : PageModel) : List FormElement :=
  p.selectInputs.filterMap fun e =>
    if e.visible ∧ ¬ e.disabled then
      match get_element_data hf e (selectInputType e) with
      | some d =>
        if d.id_of_input_component ≠ "" then some (selectElemFinish d e)
        else none
      | none => none
    else none

/-- Single (ungrouped) checkbox finish: binary option set from the label. -/
def singleCheckboxElem (d : FormElement) : FormElement :=
  let lt := pyLower d.label
  if strContains lt "yes" ∨ strContains lt "no" ∨ strContains lt "agree" ∨
     strContains lt "consent" ∨ strContains lt "accept" then
    { d with options := some ["Yes", "No"], user_data_select_values := some ["Yes"] }
  else
    { d with options := some ["Checked", "Unchecked"],
             user_data_select_values := some ["Checked"] }

/-- Group option collection loop of `_extract_checkboxes`: each visible
sibling's resolved label, first occurrence kept; a sibling whose label
resolution raises contributes nothing. -/
def checkboxGroupOptionsGo : List Ctrl → List String → List String
  | [], acc => acc
  | c :: rest, acc =>
    if c.visible then
      match find_element_label c with
      | some l =>
        if l ≠ "" ∧ ¬ acc.contains l then checkboxGroupOptionsGo rest (acc ++ [l])
        else checkboxGroupOptionsGo rest acc
      | none => checkboxGroupOptionsGo rest acc
    else checkboxGroupOptionsGo rest acc

def checkboxGroupOptions (group : List Ctrl) : List String :=
  checkboxGroupOptionsGo group []

/-- `group_key = name if name else await checkbox.get_attribute('data-automation-id')`. -/
def groupKey (cb : Ctrl) : Option String :=
  if truthy cb.nameAttr then cb.nameAttr else cb.automationId

/-- The grouped checkbox element built from the first group member's data. -/
def groupedCheckboxElem (d : FormElement) (options : List String) : FormElement :=
  { d with options := some options, user_data_select_values := some (options.take 1) }

/-- The `_extract_checkboxes` loop over the matched controls, threading the
`processed_groups` set.  A control that is invisible/disabled, carries an
already-processed group key, or whose data extraction raised, emits
nothing; a named control whose `input[name=...]` siblings number more than
one and yield group options emits the grouped element and records the
group key; every other surviving control emits a single-checkbox element. -/
def checkboxGo (hf : String → Nat) (p : PageModel) :
    List Ctrl → List String → List FormElement
  | [], _ => []
  | cb :: rest, processed =>
    if ¬ (cb.visible ∧ ¬ cb.disabled) then checkboxGo hf p rest processed
    else
      if truthy (groupKey cb) ∧ processed.contains (pyOr (groupKey cb) "") then
        checkboxGo hf p rest processed
      else
        match get_element_data hf cb "checkbox" with
        | none => checkboxGo hf p rest processed
        | some d =>
          if d.id_of_input_component = "" then checkboxGo hf p rest processed
          else
            if truthy cb.nameAttr then
              if 1 < (p.byName (pyOr cb.nameAttr "")).length then
                if checkboxGroupOptions (p.byName (pyOr cb.nameAttr "")) ≠ [] then
                  groupedCheckboxElem d
                      (checkboxGroupOptions (p.byName (pyOr cb.nameAttr ""))) ::
                    checkboxGo hf p rest (processed ++ [pyOr (groupKey cb) ""])
                else singleCheckboxElem d :: checkboxGo hf p rest processed
              else singleCheckboxElem d :: checkboxGo hf p rest processed
            else singleCheckboxElem d :: checkboxGo hf p rest processed

/-- `_extract_checkboxes`. -/
def extract_checkboxes (hf : String → Nat) (p : PageModel) : List FormElement :=
  checkboxGo hf p p.checkboxInputs []

/-- Group option collection of `_extract_radios`: a visible member's
truthy, not yet collected `value` attribute; otherwise its resolved label
when that resolves, is truthy and not yet collected. -/
def radioGroupOptions (group : List Ctrl) : List String :=
  group.foldl
    (fun acc r =>
      if r.visible then
        let v := pyOr r.valueAttr ""
        if v ≠ "" ∧ ¬ acc.contains v then acc ++ [v]
        else
          match find_element_label r with
          | some l => if l ≠ "" ∧ ¬ acc.contains l then acc ++ [l] else acc
          | none => acc
      else acc) []

/-- The grouped radio element: collected options, with the default binary
set when none were discoverable, and the first option as sample value. -/
def groupedRadioElem (d : FormElement) (options : List String) : FormElement :=
  { d with
    options := some (if options ≠ [] then options else ["Option 1", "Option 2"]),
    user_data_select_values :=
      (some ((if options ≠ [] then options else ["Option 1", "Option 2"]).take 1)) }

/-- The `_extract_radios` loop over the matched controls, threading the
`processed_groups` set.  An unnamed radio, or one whose group name was
already processed, is skipped; otherwise the name is recorded, the group's
options collected, and — when data extraction survives — one grouped
element is emitted, with the default binary option set when no option text
was discoverable. -/
def radioGo (hf : String → Nat) (p : PageModel) :
    List Ctrl → List String → List FormElement
  | [], _ => []
  | r :: rest, processed =>
    if ¬ (r.visible ∧ ¬ r.disabled) then radioGo hf p rest processed
    else
      if pyOr r.nameAttr "" = "" ∨ processed.contains (pyOr r.nameAttr "") then
        radioGo hf p rest processed
      else
        match get_element_data hf r "radio" with
        | none => radioGo hf p rest (processed ++ [pyOr r.nameAttr ""])
        | some d =>
          if d.id_of_input_component = "" then
            radioGo hf p rest (processed ++ [pyOr r.nameAttr ""])
          else
            groupedRadioElem d (radioGroupOptions (p.byName (pyOr r.nameAttr ""))) ::
              radioGo hf p rest (processed ++ [pyOr r.nameAttr ""])

/-- `_extract_radios`. -/
def extract_radios (hf : String → Nat) (p : PageModel) : List FormElement :=
  radioGo hf p p.radioInputs []

/-- `_extract_date_inputs`. -/
def extract_date_inputs (hf : String → Nat) (p : PageModel) : List FormElement :=
  p.dateInputs.filterMap fun e =>
    if e.visible ∧ ¬ e.disabled then
      match get_element_data hf e "date" with
      | some d =>
        if d.id_of_input_component ≠ "" then
          some { d with user_data_select_values := some [generate_sample_date d.label] }
        else none
      | none => none
    else none

/-- Attach the accepted file types (comma-split `accept` attribute, else
the default set) and the fixed sample filename. -/
def fileElemFinish (d : FormElement) (e : Ctrl) : FormElement :=
  if truthy e.acceptAttr then
    { d with options := some (pySplitComma (pyOr e.acceptAttr "")),
             user_data_select_values := some ["resume.pdf"] }
  else
    { d with options := some [".pdf", ".doc", ".docx"],
             user_data_select_values := some ["resume.pdf"] }

/-- `_extract_file_inputs`. -/
def extract_file_inputs (hf : String → Nat) (p : PageModel) : List FormElement :=
  p.fileInputs.filterMap fun e =>
    if e.visible ∧ ¬ e.disabled then
      match get_element_data hf e "file" with
      | some d =>
        if d.id_of_input_component ≠ "" then some (fileElemFinish d e)
        else none
      | none => none
    else none

/-- The dedup loop shared by `extract_form_elements` and
`crawl_and_extract`, threading the `seen_ids` set: keep an element exactly
when its id was not seen before. -/
def dedupGo : List FormElement → List String → List FormElement
  | [], _ => []
  | e :: rest, seen =>
    if seen.contains e.id_of_input_component then dedupGo rest seen
    else e :: dedupGo rest (seen ++ [e.id_of_input_component])

/-- The per-page dedup of `extract_form_elements` and the final dedup of
`crawl_and_extract`: keep the first element carrying each id. -/
def dedupById (l : List FormElement) : List FormElement :=
  dedupGo l []

/-- The category concatenation of `extract_form_elements`, before dedup. -/
def rawPageElements (hf : String → Nat) (p : PageModel) : List FormElement :=
  extract_text_inputs hf p ++ extract_textareas hf p ++ extract_selects hf p ++
  extract_checkboxes hf p ++ extract_radios hf p ++ extract_date_inputs hf p ++
  extract_file_inputs hf p

/-- `extract_form_elements`. -/
def extract_form_elements (hf : String → Nat) (p : PageModel) : List FormElement :=
  dedupById (rawPageElements hf p)

/-! ## LoginResolver: `login`

One `LoginStrategy` is what the source observes while running one entry of
`login_attempts`: whether `wait_for_selector` found the email field and
whether it was visible (a timeout raises, caught by the per-strategy
`try/except`), likewise for the password field, whether the submit button
was found (its visibility is not checked), and the three success
indicators evaluated after the submit. -/

structure LoginOutcome where
  /-- some keyword of {login, signin, sign-in} occurs in the lowered URL. -/
  urlHasLoginKeyword : Bool
  /-- a dashboard/profile/navigation marker element was found. -/
  dashboardMarker : Bool
  /-- a visible password input remains. -/
  passwordVisible : Bool
deriving Repr, DecidableEq

structure LoginStrategy where
  /-- `some v`: the email field was found, with visibility `v`; `none`: timeout. -/
  emailField : Option Bool
  passwordField : Option Bool
  submitFound : Bool
  outcome : LoginOutcome
deriving Repr, DecidableEq

/-- A strategy whose fields are all located (and visible where checked) and
whose submission leaves at least one success indicator true. -/
def strategySucceeds (st : LoginStrategy) : Bool :=
  st.emailField = some true ∧ st.passwordField = some true ∧ st.submitFound ∧
  (¬ st.outcome.urlHasLoginKeyword ∨ st.outcome.dashboardMarker ∨
   ¬ st.outcome.passwordVisible)

/-- The strategy loop of `login`, returning the position of the strategy at
which `login_success` became true (the loop `break`s there), `none` when
every strategy was exhausted. -/
def loginLoop : List LoginStrategy → Option Nat
  | [] => none
  | st :: rest =>
    if st.emailField = some true ∧ st.passwordField = some true ∧ st.submitFound then
      if ¬ st.outcome.urlHasLoginKeyword ∨ st.outcome.dashboardMarker ∨
         ¬ st.outcome.passwordVisible
      then some 0
      else (loginLoop rest).map (· + 1)
    else (loginLoop rest).map (· + 1)

/-- `login`: true exactly when some strategy broke the loop. -/
def login (strategies : List LoginStrategy) : Bool :=
  (loginLoop strategies).isSome

/-! ## PageCrawler: `crawl_and_extract` -/

/-- The world a crawl runs against: per URL, whether `page.goto` succeeds,
the page's controls, and the raw output of `find_navigation_links` there. -/
structure World where
  navOk : String → Bool
  pages : String → PageModel
  links : String → List String

structure CrawlState where
  visited : List String
  frontier : List String
  processed : Nat
  acc : List FormElement
  currentUrl : String

/-- The link-enqueue loop of `crawl_and_extract`: at most the first 5
discovered links, each appended only when neither visited nor already
queued (the membership test sees links appended earlier in this loop). -/
def enqueueLinks (visited frontier ls : List String) : List String :=
  (ls.take 5).foldl
    (fun q l => if ¬ visited.contains l ∧ ¬ q.contains l then q ++ [l] else q) frontier

theorem enqueueLinks_length_le (visited frontier ls : List String) :
    (enqueueLinks visited frontier ls).length ≤ frontier.length + 5 := by
  have aux : ∀ (xs q : List String),
      ((xs.foldl
        (fun q l => if ¬ visited.contains l ∧ ¬ q.contains l then q ++ [l] else q) q)).length
        ≤ q.length + xs.length := by
    intro xs
    induction xs with
    | nil => simp
    | cons x xs ih =>
      intro q
      simp only [List.foldl_cons]
      refine le_trans (ih _) ?_
      split <;> simp <;> omega
  have h1 := aux (ls.take 5) frontier
  have h2 : (ls.take 5).length ≤ 5 := by
    simp [List.length_take]
  unfold enqueueLinks
  omega

/-- The frontier loop of `crawl_and_extract`.  Each iteration pops the
frontier head; a visited URL is skipped, a URL whose navigation raises is
skipped (the `except` clause continues the loop), and otherwise the URL is
marked visited, its page extracted into the accumulator, up to 5 fresh
links enqueued and the budget consumed.  Navigation only happens (and so
can only fail) when the popped URL differs from the current page URL. -/
def crawlLoop (w : World) (hf : String → Nat) (maxPages : Nat) (s : CrawlState) :
    CrawlState :=
  match hfr : s.frontier with
  | [] => s
  | u :: rest =>
    if hp : s.processed < maxPages then
      if s.visited.contains u then
        crawlLoop w hf maxPages { s with frontier := rest }
      else if s.currentUrl ≠ u ∧ ¬ w.navOk u then
        crawlLoop w hf maxPages { s with frontier := rest }
      else
        crawlLoop w hf maxPages
          { visited := s.visited ++ [u]
          , frontier := enqueueLinks (s.visited ++ [u]) rest (w.links u)
          , processed := s.processed + 1
          , acc := s.acc ++ extract_form_elements hf (w.pages u)
          , currentUrl := u }
    else s
termination_by (maxPages - s.processed) * 6 + s.frontier.length
decreasing_by
  · simp [hfr]
  · simp [hfr]
  · have := enqueueLinks_length_le (s.visited ++ [u]) rest (w.links u)
    simp only [hfr, List.length_cons]
    omega

/-- The crawl state after the frontier loop, seeded with the post-login URL
as sole frontier entry and current page. -/
def crawl_final_state (w : World) (hf : String → Nat) (startUrl : String)
    (maxPages : Nat) : CrawlState :=
  crawlLoop w hf maxPages
    { visited := [], frontier := [startUrl], processed := 0, acc := [],
      currentUrl := startUrl }

/-- `crawl_and_extract`: abort with an empty result when every login
strategy failed; otherwise run the frontier loop and dedup the
accumulated elements by id. -/
def crawl_and_extract (w : World) (hf : String → Nat)
    (strategies : List LoginStrategy) (startUrl : String) (maxPages : Nat) :
    List FormElement :=
  if login strategies then dedupById (crawl_final_state w hf startUrl maxPages).acc
  else []

/-! ## Lemmas about the id-dedup pass -/

theorem dedupGo_mem_find (l : List FormElement) (seen : List String) :
    ∀ e ∈ dedupGo l seen,
      e.id_of_input_component ∉ seen ∧
      l.find? (fun x => x.id_of_input_component == e.id_of_input_component) = some e := by
  induction l generalizing seen with
  | nil => simp [dedupGo]
  | cons x rest ih =>
    intro e he
    rw [dedupGo] at he
    by_cases hx : seen.contains x.id_of_input_component
    · rw [if_pos hx] at he
      obtain ⟨hnot, hfind⟩ := ih seen e he
      have hxmem : x.id_of_input_component ∈ seen := by simpa using hx
      have hne : (x.id_of_input_component == e.id_of_input_component) = false := by
        simp only [beq_eq_false_iff_ne]
        intro hcontra
        exact hnot (hcontra ▸ hxmem)
      refine ⟨hnot, ?_⟩
      rw [List.find?_cons]
      simp only [hne]
      exact hfind
    · rw [if_neg hx] at he
      rcases List.mem_cons.mp he with rfl | he'
      · refine ⟨by simpa using hx, ?_⟩
        exact List.find?_cons_of_pos _ (by simp)
      · obtain ⟨hnot, hfind⟩ := ih (seen ++ [x.id_of_input_component]) e he'
        have h1 : e.id_of_input_component ∉ seen := fun hmem => hnot (by simp [hmem])
        have h2 : e.id_of_input_component ≠ x.id_of_input_component :=
          fun hmem => hnot (by simp [hmem])
        have hne : (x.id_of_input_component == e.id_of_input_component) = false := by
          simp only [beq_eq_false_iff_ne]
          exact fun hc => h2 hc.symm
        refine ⟨h1, ?_⟩
        rw [List.find?_cons]
        simp only [hne]
        exact hfind

theorem dedupGo_nodup (l : List FormElement) (seen : List String) :
    ((dedupGo l seen).map (·.id_of_input_component)).Nodup := by
  induction l generalizing seen with
  | nil => simp [dedupGo]
  | cons x rest ih =>
    rw [dedupGo]
    by_cases hx : seen.contains x.id_of_input_component
    · rw [if_pos hx]
      exact ih seen
    · rw [if_neg hx]
      simp only [List.map_cons, List.nodup_cons]
      refine ⟨?_, ih _⟩
      intro hmem
      simp only [List.mem_map] at hmem
      obtain ⟨e, he, hid⟩ := hmem
      exact (dedupGo_mem_find rest (seen ++ [x.id_of_input_component]) e he).1
        (by simp [hid])

theorem dedupGo_covers (l : List FormElement) (seen : List String) :
    ∀ x ∈ l, x.id_of_input_component ∈ seen ∨
      ∃ e ∈ dedupGo l seen, e.id_of_input_component = x.id_of_input_component := by
  induction l generalizing seen with
  | nil => simp
  | cons y rest ih =>
    intro x hx
    rw [dedupGo]
    by_cases hy : seen.contains y.id_of_input_component
    · rw [if_pos hy]
      rcases List.mem_cons.mp hx with rfl | hx'
      · exact Or.inl (by simpa using hy)
      · exact ih seen x hx'
    · rw [if_neg hy]
      rcases List.mem_cons.mp hx with heq | hx'
      · exact Or.inr ⟨y, List.mem_cons_self _ _, heq.symm ▸ rfl⟩
      · rcases ih (seen ++ [y.id_of_input_component]) x hx' with hin | ⟨e, he, hid⟩
        · rcases List.mem_append.mp hin with hin | hin
          · exact Or.inl hin
          · refine Or.inr ⟨y, List.mem_cons_self _ _, ?_⟩
            exact (List.mem_singleton.mp hin).symm
        · exact Or.inr ⟨e, List.mem_cons_of_mem _ he, hid⟩

theorem dedupById_props (l : List FormElement) :
    ((dedupById l).map (·.id_of_input_component)).Nodup ∧
    (∀ e ∈ dedupById l,
      l.find? (fun x => x.id_of_input_component == e.id_of_input_component) = some e) ∧
    (∀ x ∈ l, ∃ e ∈ dedupById l,
      e.id_of_input_component = x.id_of_input_component) := by
  unfold dedupById
  refine ⟨dedupGo_nodup l [], ?_, ?_⟩
  · intro e he
    exact (dedupGo_mem_find l [] e he).2
  · intro x hx
    rcases dedupGo_covers l [] x hx with h | h
    · simp at h
    · exact h

theorem mem_of_mem_dedupById (l : List FormElement) :
    ∀ e ∈ dedupById l, e ∈ l := by
  intro e he
  exact List.mem_of_find?_eq_some ((dedupById_props l).2.1 e he)

/-! ## Every extracted element carries a non-empty id -/

theorem pyOr_ne_empty (o : Option String) (d : String) (hd : d ≠ "") :
    pyOr o d ≠ "" := by
  unfold pyOr
  cases o with
  | none => exact hd
  | some s =>
    by_cases hs : s = ""
    · simp [hs, hd]
    · simp [hs]

theorem hash_id_ne_empty (n : Nat) : ("element_" ++ toString n) ≠ "" := by
  intro h
  have h2 : ("element_" ++ toString n).length = "element_".length + (toString n).length :=
    String.length_append _ _
  rw [h] at h2
  have h0 : ("" : String).length = 0 := rfl
  have h8 : ("element_" : String).length = 8 := rfl
  rw [h0, h8] at h2
  omega

theorem get_element_data_id_ne (hf : String → Nat) (e : Ctrl) (t : String)
    (d : FormElement) (h : get_element_data hf e t = some d) :
    d.id_of_input_component ≠ "" := by
  unfold get_element_data at h
  cases hl : find_element_label e with
  | none => rw [hl] at h; simp at h
  | some lbl =>
    rw [hl] at h
    simp only [Option.some.injEq] at h
    subst h
    exact pyOr_ne_empty _ _ (pyOr_ne_empty _ _ (pyOr_ne_empty _ _ (hash_id_ne_empty _)))

theorem singleCheckboxElem_id (d : FormElement) :
    (singleCheckboxElem d).id_of_input_component = d.id_of_input_component := by
  simp only [singleCheckboxElem]
  split <;> rfl

theorem groupedCheckboxElem_id (d : FormElement) (options : List String) :
    (groupedCheckboxElem d options).id_of_input_component = d.id_of_input_component := rfl

theorem groupedRadioElem_id (d : FormElement) (options : List String) :
    (groupedRadioElem d options).id_of_input_component = d.id_of_input_component := rfl

theorem checkboxGo_id_ne (hf : String → Nat) (p : PageModel) :
    ∀ (l : List Ctrl) (processed : List String),
      ∀ e ∈ checkboxGo hf p l processed, e.id_of_input_component ≠ "" := by
  intro l
  induction l with
  | nil => intro processed e he; simp [checkboxGo] at he
  | cons cb rest ih =>
    intro processed e he
    rw [checkboxGo] at he
    split at he
    · exact ih _ e he
    · split at he
      · exact ih _ e he
      · split at he
        · exact ih _ e he
        · rename_i d hd
          split at he
          · exact ih _ e he
          · rename_i hid
            split at he
            · split at he
              · split at he
                · rcases List.mem_cons.mp he with heq | he'
                  · rw [heq, groupedCheckboxElem_id]
                    exact get_element_data_id_ne hf cb "checkbox" d hd
                  · exact ih _ e he'
                · rcases List.mem_cons.mp he with heq | he'
                  · rw [heq, singleCheckboxElem_id]
                    exact get_element_data_id_ne hf cb "checkbox" d hd
                  · exact ih _ e he'
              · rcases List.mem_cons.mp he with heq | he'
                · rw [heq, singleCheckboxElem_id]
                  exact get_element_data_id_ne hf cb "checkbox" d hd
                · exact ih _ e he'
            · rcases List.mem_cons.mp he with heq | he'
              · rw [heq, singleCheckboxElem_id]
                exact get_element_data_id_ne hf cb "checkbox" d hd
              · exact ih _ e he'

theorem radioGo_id_ne (hf : String → Nat) (p : PageModel) :
    ∀ (l : List Ctrl) (processed : List String),
      ∀ e ∈ radioGo hf p l processed, e.id_of_input_component ≠ "" := by
  intro l
  induction l with
  | nil => intro processed e he; simp [radioGo] at he
  | cons r rest ih =>
    intro processed e he
    rw [radioGo] at he
    split at he
    · exact ih _ e he
    · split at he
      · exact ih _ e he
      · split at he
        · exact ih _ e he
        · rename_i d hd
          split at he
          · exact ih _ e he
          · rcases List.mem_cons.mp he with heq | he'
            · rw [heq, groupedRadioElem_id]
              exact get_element_data_id_ne hf r "radio" d hd
            · exact ih _ e he'

theorem filterMapExtract_id_ne {hf : String → Nat}
    (l : List Ctrl) (t : Ctrl → String) (fin : FormElement → Ctrl → FormElement)
    (hfin : ∀ d c, (fin d c).id_of_input_component = d.id_of_input_component) :
    ∀ e ∈ l.filterMap (fun c =>
      if c.visible ∧ ¬ c.disabled then
        match get_element_data hf c (t c) with
        | some d => if d.id_of_input_component ≠ "" then some (fin d c) else none
        | none => none
      else none), e.id_of_input_component ≠ "" := by
  intro e he
  rw [List.mem_filterMap] at he
  obtain ⟨c, _, hc⟩ := he
  split at hc
  · split at hc
    · split at hc
      · rename_i hid
        injection hc with h2
        rw [← h2, hfin]
        exact hid
      · simp at hc
    · simp at hc
  · simp at hc

theorem selectElemFinish_id (d : FormElement) (e : Ctrl) :
    (selectElemFinish d e).id_of_input_component = d.id_of_input_component := by
  simp only [selectElemFinish]
  split <;> rfl

theorem fileElemFinish_id (d : FormElement) (e : Ctrl) :
    (fileElemFinish d e).id_of_input_component = d.id_of_input_component := by
  simp only [fileElemFinish]
  split <;> rfl

theorem rawPageElements_id_ne (hf : String → Nat) (p : PageModel) :
    ∀ e ∈ rawPageElements hf p, e.id_of_input_component ≠ "" := by
  intro e he
  unfold rawPageElements at he
  simp only [List.mem_append] at he
  rcases he with ((((((h | h) | h) | h) | h) | h) | h)
  · unfold extract_text_inputs at h
    exact filterMapExtract_id_ne p.textInputs (fun _ => "text")
      (fun d c => { d with
        user_data_select_values := some [generate_sample_text_value d.label c] })
      (fun d c => rfl) e h
  · unfold extract_textareas at h
    exact filterMapExtract_id_ne p.textareaInputs (fun _ => "textarea")
      (fun d c => { d with
        user_data_select_values :=
          (some ["This is sample text area content for testing purposes."]) })
      (fun d c => rfl) e h
  · unfold extract_selects at h
    exact filterMapExtract_id_ne p.selectInputs selectInputType selectElemFinish
      selectElemFinish_id e h
  · exact checkboxGo_id_ne hf p p.checkboxInputs [] e h
  · exact radioGo_id_ne hf p p.radioInputs [] e h
  · unfold extract_date_inputs at h
    exact filterMapExtract_id_ne p.dateInputs (fun _ => "date")
      (fun d c => { d with
        user_data_select_values := some [generate_sample_date d.label] })
      (fun d c => rfl) e h
  · unfold extract_file_inputs at h
    exact filterMapExtract_id_ne p.fileInputs (fun _ => "file") fileElemFinish
      fileElemFinish_id e h

/-! ## Lemmas about Python truthiness -/

theorem truthy_some_iff (s : String) : truthy (some s) = true ↔ s ≠ "" := by
  simp [truthy]

theorem pyOr_some_ne (s d : String) (h : s ≠ "") : pyOr (some s) d = s := by
  simp [pyOr, h]

/-! ## Lemmas about the options resolver -/

theorem dedupCapGo_nodup (l : List String) :
    ∀ acc : List String, acc.Nodup → (dedupCapGo l acc).Nodup := by
  induction l with
  | nil => intro acc hacc; simpa [dedupCapGo] using hacc
  | cons o rest ih =>
    intro acc hacc
    rw [dedupCapGo]
    split
    · rename_i h
      apply ih
      have ho : o ∉ acc := by simpa using h.2
      simp [List.nodup_append, hacc, ho]
    · exact ih acc hacc

theorem dedupCapGo_of_nodup (l : List String) :
    ∀ acc : List String, (∀ x ∈ l, x ≠ "" ∧ x ∉ acc) → l.Nodup →
      dedupCapGo l acc = acc ++ l := by
  induction l with
  | nil => intro acc _ _; simp [dedupCapGo]
  | cons o rest ih =>
    intro acc hx hnd
    rw [dedupCapGo]
    have h1 := hx o (List.mem_cons_self _ _)
    rw [if_pos ⟨h1.1, by simpa using h1.2⟩]
    have hrest : ∀ x ∈ rest, x ≠ "" ∧ x ∉ acc ++ [o] := by
      intro x hxm
      refine ⟨(hx x (List.mem_cons_of_mem _ hxm)).1, ?_⟩
      intro hmem
      rcases List.mem_append.mp hmem with hm | hm
      · exact (hx x (List.mem_cons_of_mem _ hxm)).2 hm
      · exact (List.nodup_cons.mp hnd).1 ((List.mem_singleton.mp hm) ▸ hxm)
    rw [ih (acc ++ [o]) hrest (List.nodup_cons.mp hnd).2]
    simp

theorem collectNativeGo_all_pass (entries : List OptionEntry) :
    ∀ acc : List String,
      (∀ o ∈ entries, ¬ nativeSentinels.contains (pyLower (optionText o)) = true) →
      collectNativeGo entries acc = acc ++ entries.map optionText := by
  induction entries with
  | nil => intro acc _; simp [collectNativeGo]
  | cons o rest ih =>
    intro acc h
    rw [collectNativeGo]
    have h0 := h o (List.mem_cons_self _ _)
    have hne : optionText o ≠ "" := by
      intro he
      apply h0
      rw [he]
      decide
    rw [if_pos ⟨hne, h0⟩,
        ih (acc ++ [optionText o]) (fun x hx => h x (List.mem_cons_of_mem _ hx))]
    simp

theorem get_select_options_nodup_len (sp : SelectProbe) :
    (get_select_options sp).Nodup ∧ (get_select_options sp).length ≤ 15 := by
  unfold get_select_options dedupCap
  constructor
  · exact (List.take_sublist _ _).nodup (dedupCapGo_nodup _ [] List.nodup_nil)
  · simp [List.length_take]

theorem get_select_options_native (sp : SelectProbe)
    (hne : sp.nativeOptions ≠ [])
    (hs : ∀ o ∈ sp.nativeOptions,
      ¬ nativeSentinels.contains (pyLower (optionText o)) = true)
    (hnd : (sp.nativeOptions.map optionText).Nodup) :
    get_select_options sp = (sp.nativeOptions.map optionText).take 15 := by
  unfold get_select_options
  rw [if_pos hne]
  unfold collectNative dedupCap
  have hmap : ∀ x ∈ sp.nativeOptions.map optionText, x ≠ "" ∧ x ∉ ([] : List String) := by
    intro x hx
    rw [List.mem_map] at hx
    obtain ⟨o, ho, hxo⟩ := hx
    subst hxo
    refine ⟨?_, by simp⟩
    intro he
    exact hs o ho (by rw [he]; decide)
  rw [collectNativeGo_all_pass _ [] hs, List.nil_append,
      dedupCapGo_of_nodup _ [] hmap hnd, List.nil_append]

/-! ## Unfolding equations and invariants of the crawl loop -/

theorem crawlLoop_stop (w : World) (hf : String → Nat) (mp : Nat) (s : CrawlState)
    (h : s.frontier = []) : crawlLoop w hf mp s = s := by
  rw [crawlLoop]
  split
  · rfl
  · rename_i u rest hfr
    rw [h] at hfr
    cases hfr

theorem crawlLoop_budget_stop (w : World) (hf : String → Nat) (mp : Nat)
    (s : CrawlState) (hp : ¬ s.processed < mp) : crawlLoop w hf mp s = s := by
  rw [crawlLoop]
  split
  · rfl
  · rw [dif_neg hp]

theorem crawlLoop_skip_visited (w : World) (hf : String → Nat) (mp : Nat)
    (s : CrawlState) (u : String) (rest : List String)
    (hfr : s.frontier = u :: rest) (hp : s.processed < mp)
    (hv : s.visited.contains u = true) :
    crawlLoop w hf mp s = crawlLoop w hf mp { s with frontier := rest } := by
  conv_lhs => rw [crawlLoop]
  split
  · rename_i h
    rw [h] at hfr
    cases hfr
  · rename_i u' rest' h
    rw [hfr] at h
    injection h with h1 h2
    subst h1
    subst h2
    rw [dif_pos hp, if_pos hv]

theorem crawlLoop_skip_navfail (w : World) (hf : String → Nat) (mp : Nat)
    (s : CrawlState) (u : String) (rest : List String)
    (hfr : s.frontier = u :: rest) (hp : s.processed < mp)
    (hv : ¬ s.visited.contains u = true)
    (hn : s.currentUrl ≠ u ∧ ¬ w.navOk u = true) :
    crawlLoop w hf mp s = crawlLoop w hf mp { s with frontier := rest } := by
  conv_lhs => rw [crawlLoop]
  split
  · rename_i h
    rw [h] at hfr
    cases hfr
  · rename_i u' rest' h
    rw [hfr] at h
    injection h with h1 h2
    subst h1
    subst h2
    rw [dif_pos hp, if_neg hv, if_pos hn]

theorem crawlLoop_process (w : World) (hf : String → Nat) (mp : Nat)
    (s : CrawlState) (u : String) (rest : List String)
    (hfr : s.frontier = u :: rest) (hp : s.processed < mp)
    (hv : ¬ s.visited.contains u = true)
    (hn : ¬ (s.currentUrl ≠ u ∧ ¬ w.navOk u = true)) :
    crawlLoop w hf mp s = crawlLoop w hf mp
      { visited := s.visited ++ [u]
      , frontier := enqueueLinks (s.visited ++ [u]) rest (w.links u)
      , processed := s.processed + 1
      , acc := s.acc ++ extract_form_elements hf (w.pages u)
      , currentUrl := u } := by
  conv_lhs => rw [crawlLoop]
  split
  · rename_i h
    rw [h] at hfr
    cases hfr
  · rename_i u' rest' h
    rw [hfr] at h
    injection h with h1 h2
    subst h1
    subst h2
    rw [dif_pos hp, if_neg hv, if_neg hn]

/-- Main crawl invariant: the visited set stays duplicate-free, grows by
exactly one entry per budget increment, and the budget never exceeds the
page cap. -/
theorem crawlLoop_visited_inv (w : World) (hf : String → Nat) (mp : Nat) :
    ∀ s : CrawlState, s.visited.Nodup →
      ((crawlLoop w hf mp s).visited.Nodup ∧
       (crawlLoop w hf mp s).visited.length + s.processed =
         s.visited.length + (crawlLoop w hf mp s).processed ∧
       (s.processed ≤ mp → (crawlLoop w hf mp s).processed ≤ mp)) := by
  intro s
  induction s using crawlLoop.induct w hf mp with
  | case1 x hfr =>
    intro hnd
    rw [crawlLoop_stop w hf mp x hfr]
    exact ⟨hnd, by omega, fun h => h⟩
  | case2 x u rest hfr hp hv ih =>
    intro hnd
    rw [crawlLoop_skip_visited w hf mp x u rest hfr hp hv]
    exact ih hnd
  | case3 x u rest hfr hp hv hn ih =>
    intro hnd
    rw [crawlLoop_skip_navfail w hf mp x u rest hfr hp hv hn]
    exact ih hnd
  | case4 x u rest hfr hp hv hn ih =>
    intro hnd
    rw [crawlLoop_process w hf mp x u rest hfr hp hv hn]
    have hu : u ∉ x.visited := by simpa using hv
    have hnd' : (x.visited ++ [u]).Nodup := by
      simp [List.nodup_append, hnd, hu]
    obtain ⟨h1, h2, h3⟩ := ih hnd'
    refine ⟨h1, ?_, fun hle => h3 (show x.processed + 1 ≤ mp by omega)⟩
    simp only [List.length_append, List.length_cons, List.length_nil] at h2 ⊢
    omega
  | case5 x u rest hfr hp =>
    intro hnd
    rw [crawlLoop_budget_stop w hf mp x hp]
    exact ⟨hnd, by omega, fun h => h⟩

/-- Provenance of visited entries: a URL is only marked visited when it was
already visited, its navigation succeeded, or it was the page the crawler
was already on when popped. -/
theorem crawlLoop_visited_src (w : World) (hf : String → Nat) (mp : Nat) :
    ∀ s : CrawlState, ∀ u ∈ (crawlLoop w hf mp s).visited,
      u ∈ s.visited ∨ w.navOk u = true ∨ u = s.currentUrl := by
  intro s
  induction s using crawlLoop.induct w hf mp with
  | case1 x hfr =>
    rw [crawlLoop_stop w hf mp x hfr]
    exact fun u hu => Or.inl hu
  | case2 x u rest hfr hp hv ih =>
    rw [crawlLoop_skip_visited w hf mp x u rest hfr hp hv]
    exact ih
  | case3 x u rest hfr hp hv hn ih =>
    rw [crawlLoop_skip_navfail w hf mp x u rest hfr hp hv hn]
    exact ih
  | case4 x u rest hfr hp hv hn ih =>
    rw [crawlLoop_process w hf mp x u rest hfr hp hv hn]
    intro v hvv
    rcases ih v hvv with hin | hok | hcur
    · rcases List.mem_append.mp hin with hin | hin
      · exact Or.inl hin
      · have : v = u := List.mem_singleton.mp hin
        subst this
        rcases Decidable.em (x.currentUrl = v) with heq | hne
        · exact Or.inr (Or.inr heq.symm)
        · have : w.navOk v = true := by
            by_contra hno
            exact hn ⟨hne, by simpa using hno⟩
          exact Or.inr (Or.inl this)
    · exact Or.inr (Or.inl hok)
    · subst hcur
      rcases Decidable.em (x.currentUrl = v) with heq | hne
      · exact Or.inr (Or.inr heq.symm)
      · have : w.navOk v = true := by
          by_contra hno
          exact hn ⟨hne, by simpa using hno⟩
        exact Or.inr (Or.inl this)
  | case5 x u rest hfr hp =>
    rw [crawlLoop_budget_stop w hf mp x hp]
    exact fun u hu => Or.inl hu

/-- Provenance of accumulated elements: everything in the accumulator came
from the initial accumulator or from some page's extraction output. -/
theorem crawlLoop_acc_src (w : World) (hf : String → Nat) (mp : Nat) :
    ∀ s : CrawlState, ∀ e ∈ (crawlLoop w hf mp s).acc,
      e ∈ s.acc ∨ ∃ u, e ∈ extract_form_elements hf (w.pages u) := by
  intro s
  induction s using crawlLoop.induct w hf mp with
  | case1 x hfr =>
    rw [crawlLoop_stop w hf mp x hfr]
    exact fun e he => Or.inl he
  | case2 x u rest hfr hp hv ih =>
    rw [crawlLoop_skip_visited w hf mp x u rest hfr hp hv]
    exact ih
  | case3 x u rest hfr hp hv hn ih =>
    rw [crawlLoop_skip_navfail w hf mp x u rest hfr hp hv hn]
    exact ih
  | case4 x u rest hfr hp hv hn ih =>
    rw [crawlLoop_process w hf mp x u rest hfr hp hv hn]
    intro e he
    rcases ih e he with hin | hsrc
    · rcases List.mem_append.mp hin with hin | hin
      · exact Or.inl hin
      · exact Or.inr ⟨u, hin⟩
    · exact Or.inr hsrc
  | case5 x u rest hfr hp =>
    rw [crawlLoop_budget_stop w hf mp x hp]
    exact fun e he => Or.inl he

/-! ## Lemmas about checkbox and radio grouping -/

/-- A page whose only controls are one same-named checkbox group. -/
def cbFamilyPage (n : String) (ms : List Ctrl) : PageModel :=
  { emptyPage with checkboxInputs := ms, byName := fun k => if k = n then ms else [] }

/-- A page whose only controls are one same-named radio group. -/
def radioFamilyPage (n : String) (ms : List Ctrl) : PageModel :=
  { emptyPage with radioInputs := ms, byName := fun k => if k = n then ms else [] }

/-- Once a group key is recorded, every later same-named checkbox is
skipped without emitting anything. -/
theorem checkboxGo_all_processed (hf : String → Nat) (p : PageModel) (n : String)
    (hn : n ≠ "") :
    ∀ (ms : List Ctrl) (processed : List String),
      (∀ m ∈ ms, m.nameAttr = some n) → n ∈ processed →
      checkboxGo hf p ms processed = [] := by
  intro ms
  induction ms with
  | nil => intro processed _ _; rfl
  | cons cb rest ih =>
    intro processed hname hmem
    have hcb := hname cb (List.mem_cons_self _ _)
    have hkey : groupKey cb = some n := by
      unfold groupKey
      rw [hcb, if_pos (by simpa using (truthy_some_iff n).mpr hn)]
    rw [checkboxGo]
    split
    · exact ih processed (fun m hm => hname m (List.mem_cons_of_mem _ hm)) hmem
    · rw [if_pos ?_]
      · exact ih processed (fun m hm => hname m (List.mem_cons_of_mem _ hm)) hmem
      · refine ⟨?_, ?_⟩
        · rw [hkey]
          exact (truthy_some_iff n).mpr hn
        · rw [hkey, pyOr_some_ne n "" hn]
          simpa using hmem

/-- Once a group name is recorded, every later same-named radio is skipped. -/
theorem radioGo_all_processed (hf : String → Nat) (p : PageModel) (n : String) :
    ∀ (ms : List Ctrl) (processed : List String),
      (∀ m ∈ ms, m.nameAttr = some n) → n ∈ processed →
      radioGo hf p ms processed = [] := by
  intro ms
  induction ms with
  | nil => intro processed _ _; rfl
  | cons r rest ih =>
    intro processed hname hmem
    have hr := hname r (List.mem_cons_self _ _)
    rw [radioGo]
    split
    · exact ih processed (fun m hm => hname m (List.mem_cons_of_mem _ hm)) hmem
    · rw [if_pos ?_]
      · exact ih processed (fun m hm => hname m (List.mem_cons_of_mem _ hm)) hmem
      · by_cases hn : n = ""
        · left
          rw [hr, hn]
          rfl
        · right
          rw [hr, pyOr_some_ne n "" hn]
          simpa using hmem

/-- A same-named radio family emits at most one element. -/
theorem radioGo_family_len (hf : String → Nat) (p : PageModel) (n : String) :
    ∀ ms : List Ctrl, (∀ m ∈ ms, m.nameAttr = some n) →
      (radioGo hf p ms []).length ≤ 1 := by
  intro ms
  induction ms with
  | nil => intro _; simp [radioGo]
  | cons r rest ih =>
    intro hname
    have hr := hname r (List.mem_cons_self _ _)
    have hrest : ∀ m ∈ rest, m.nameAttr = some n :=
      fun m hm => hname m (List.mem_cons_of_mem _ hm)
    rw [radioGo]
    split
    · exact ih hrest
    · by_cases hn : n = ""
      · rw [if_pos (by left; rw [hr, hn]; rfl)]
        exact ih hrest
      · have hpy : pyOr r.nameAttr "" = n := by rw [hr]; exact pyOr_some_ne n "" hn
        rw [if_neg (by rw [hpy]; simp [hn])]
        have hrec : radioGo hf p rest ([] ++ [pyOr r.nameAttr ""]) = [] := by
          rw [hpy]
          exact radioGo_all_processed hf p n rest ([] ++ [n]) hrest (by simp)
        split
        · rw [hrec]; simp
        · split
          · rw [hrec]; simp
          · rw [hrec]; simp

/-- Group option collection over members whose labels all resolve to
pairwise distinct non-empty strings collects exactly those labels. -/
theorem checkboxGroupOptionsGo_resolved (ms : List Ctrl) :
    ∀ (ls : List String) (acc : List String),
      ms.map find_element_label = ls.map some →
      (∀ m ∈ ms, m.visible = true) →
      (∀ l ∈ ls, l ≠ "" ∧ l ∉ acc) →
      ls.Nodup →
      checkboxGroupOptionsGo ms acc = acc ++ ls := by
  induction ms with
  | nil =>
    intro ls acc hmap _ _ _
    cases ls with
    | nil => simp [checkboxGroupOptionsGo]
    | cons l ls' => simp at hmap
  | cons c rest ih =>
    intro ls acc hmap hvis hls hnd
    cases ls with
    | nil => simp at hmap
    | cons l ls' =>
      simp only [List.map_cons, List.cons.injEq] at hmap
      obtain ⟨hc, hrest⟩ := hmap
      rw [checkboxGroupOptionsGo]
      rw [if_pos (hvis c (List.mem_cons_self _ _))]
      simp only [hc]
      have hl := hls l (List.mem_cons_self _ _)
      rw [if_pos ⟨hl.1, by simpa using hl.2⟩]
      have hls' : ∀ x ∈ ls', x ≠ "" ∧ x ∉ acc ++ [l] := by
        intro x hxm
        have hx := hls x (List.mem_cons_of_mem _ hxm)
        refine ⟨hx.1, ?_⟩
        intro hin
        rcases List.mem_append.mp hin with hm | hm
        · exact hx.2 hm
        · exact (List.nodup_cons.mp hnd).1 ((List.mem_singleton.mp hm) ▸ hxm)
      rw [ih ls' (acc ++ [l]) hrest
            (fun m hm => hvis m (List.mem_cons_of_mem _ hm)) hls'
            (List.nodup_cons.mp hnd).2]
      simp

/-! ## Demonstration inputs for witnesses and counterexamples -/

def demoHash : String → Nat := fun _ => 37

def demoTextPage : PageModel :=
  { emptyPage with textInputs := [{ blankCtrl with ariaLabel := some "Years Of Service" }] }

def demoTextElem : FormElement :=
  { label := "Years Of Service", id_of_input_component := "element_37", required := false,
    type_of_input := "text", options := none, user_data_select_values := some ["5"] }

def okStrategy : LoginStrategy :=
  { emailField := some true, passwordField := some true, submitFound := true,
    outcome := { urlHasLoginKeyword := false, dashboardMarker := false,
                 passwordVisible := false } }

def missingEmailStrategy : LoginStrategy :=
  { emailField := none, passwordField := some true, submitFound := true,
    outcome := { urlHasLoginKeyword := false, dashboardMarker := false,
                 passwordVisible := false } }

def missingPasswordStrategy : LoginStrategy :=
  { emailField := some true, passwordField := none, submitFound := true,
    outcome := { urlHasLoginKeyword := false, dashboardMarker := false,
                 passwordVisible := false } }

/-- Strategy 1 lacks its email field, strategy 2 its password field,
strategy 3 succeeds. -/
def demoStrategies : List LoginStrategy :=
  [missingEmailStrategy, missingPasswordStrategy, okStrategy, okStrategy]

def demoWorld : World :=
  { navOk := fun u => u ≠ "bad"
  , pages := fun _ => demoTextPage
  , links := fun u => if u = "start" then ["bad", "page2", "start"] else [] }

def cbA : Ctrl := { blankCtrl with nameAttr := some "cbg", ariaLabel := some "Aaa" }

def cbB : Ctrl := { blankCtrl with nameAttr := some "cbg", ariaLabel := some "Bbb" }

def cbC : Ctrl := { blankCtrl with nameAttr := some "cbg", ariaLabel := some "Ccc" }

def dupValueRadioA : Ctrl :=
  { blankCtrl with nameAttr := some "g", valueAttr := some "A",
                   ariaLabel := some "Label One" }

def dupValueRadioB : Ctrl :=
  { blankCtrl with nameAttr := some "g", valueAttr := some "A",
                   ariaLabel := some "Label Two" }

def wideSelectProbe : SelectProbe :=
  ⟨(List.range 16).map (fun i => ⟨"Opt" ++ toString i, none⟩), [], []⟩

/-! ## The claims -/

/-- C4 (code bug): the claim says the label resolver always returns a
non-empty string and falls back to "Unnamed <category> field" exactly when
no earlier rule matched.  In the source, both fallback return statements
evaluate the undefined name `input_type` inside an f-string; with no
truthy `type` attribute the resolver raises `NameError` instead of
returning anything (the caller then drops the control), and with a truthy
`type` attribute it returns "Unnamed <type-attribute> field", which is not
the element's category in general.  Evaluated here at the failing inputs:
a bare control yields no label at all and is dropped by
`_get_element_data`, and a bare `type="email"` control (extracted under
category "text") yields "Unnamed email field". -/
theorem claim_C4_label_fallback_bug :
    find_element_label blankCtrl = none ∧
    get_element_data (fun _ => 0) blankCtrl "checkbox" = none ∧
    find_element_label { blankCtrl with typeAttr := some "email" } =
      some "Unnamed email field" ∧
    "Unnamed email field" ≠ "Unnamed text field" := by
  refine ⟨rfl, rfl, rfl, by decide⟩

/-- C5: the requiredness resolver returns true exactly when one of the six
probes matches — native `required` attribute present (regardless of
anything else), `aria-required="true"`, own class containing "required",
a parent required-indicator element, a parent inner HTML containing `*` or
"required", or a parent class containing "required". -/
theorem claim_C5_requiredness (e : Ctrl) :
    (e.requiredAttr.isSome = true → is_element_required e = true) ∧
    (is_element_required e = true ↔
      (e.requiredAttr.isSome = true ∨
       e.ariaRequired = some "true" ∨
       strContains (pyLower (pyOr e.classAttr "")) "required" = true ∨
       ∃ p, e.parentReq = some p ∧
         (p.hasRequiredIndicators = true ∨
          (p.innerHtml ≠ "" ∧
            (strContains p.innerHtml "*" = true ∨
             strContains (pyLower p.innerHtml) "required" = true)) ∨
          strContains (pyLower (pyOr p.classAttr "")) "required" = true))) := by
  constructor
  · intro h
    unfold is_element_required
    rw [if_pos h]
  · unfold is_element_required
    cases hp : e.parentReq with
    | none =>
      simp only [hp]
      split_ifs with h1 h2 h3 <;> simp_all
    | some p =>
      simp only [hp]
      split_ifs with h1 h2 h3 g1 g2 g3 <;> simp_all

/-- C5 witness: a control whose `required` attribute is present (even with
an empty value) resolves as required. -/
theorem claim_C5_witness :
    is_element_required { blankCtrl with requiredAttr := some "" } = true :=
  (claim_C5_requiredness { blankCtrl with requiredAttr := some "" }).1 (by decide)

/-- C6 counterexample: a native choice control with 16 pairwise distinct,
non-placeholder entries.  The claim as stated promises "exactly those
entries' visible texts", but the resolver caps the list at 15, so the
result differs from the full text list. -/
theorem claim_C6_counterexample :
    (∀ o ∈ wideSelectProbe.nativeOptions,
      ¬ nativeSentinels.contains (pyLower (optionText o)) = true) ∧
    (wideSelectProbe.nativeOptions.map optionText).Nodup ∧
    get_select_options wideSelectProbe ≠ wideSelectProbe.nativeOptions.map optionText := by
  decide

/-- C6 (amended): for a native choice control whose entries are all
non-placeholder and pairwise distinct, the resolver returns exactly the
first 15 of those entries' visible texts in DOM order (hence all of them
when there are at most 15); and for every control the final options list
is duplicate-free and holds at most 15 entries. -/
theorem claim_C6_options_resolution (sp : SelectProbe) :
    (get_select_options sp).Nodup ∧
    (get_select_options sp).length ≤ 15 ∧
    (sp.nativeOptions ≠ [] →
      (∀ o ∈ sp.nativeOptions,
        ¬ nativeSentinels.contains (pyLower (optionText o)) = true) →
      (sp.nativeOptions.map optionText).Nodup →
      get_select_options sp = (sp.nativeOptions.map optionText).take 15) := by
  refine ⟨(get_select_options_nodup_len sp).1, (get_select_options_nodup_len sp).2, ?_⟩
  exact fun h1 h2 h3 => get_select_options_native sp h1 h2 h3

/-- C6 witness: a native 3-option control yields exactly its 3 option texts
in DOM order. -/
theorem claim_C6_witness :
    get_select_options ⟨[⟨"Red", none⟩, ⟨"Green", none⟩, ⟨"Blue", none⟩], [], []⟩ =
      (([⟨"Red", none⟩, ⟨"Green", none⟩, ⟨"Blue", none⟩] :
          List OptionEntry).map optionText).take 15 :=
  (claim_C6_options_resolution _).2.2 (by decide) (by decide) (by decide)

/-- C9: the extraction pipeline is a pure function of the document model
and the per-session hash function used by the synthesized-id fallback
`element_<abs(hash(str(element)))>`: two runs over the same unchanged page
yield identical element lists, ids included. -/
theorem claim_C9_idempotent (hf : String → Nat) (p : PageModel)
    (run1 run2 : List FormElement)
    (h1 : run1 = extract_form_elements hf p)
    (h2 : run2 = extract_form_elements hf p) :
    run1 = run2 ∧
    run1.map (·.id_of_input_component) = run2.map (·.id_of_input_component) := by
  subst h1
  subst h2
  exact ⟨rfl, rfl⟩

/-- C9 witness: both runs over the demo page evaluate to the same concrete
one-element list. -/
theorem claim_C9_witness :
    [demoTextElem] = [demoTextElem] ∧
    [demoTextElem].map (·.id_of_input_component) =
      [demoTextElem].map (·.id_of_input_component) :=
  claim_C9_idempotent demoHash demoTextPage [demoTextElem] [demoTextElem]
    (by decide) (by decide)

theorem loginLoop_eq_findIdx (ss : List LoginStrategy) :
    loginLoop ss = ss.findIdx? strategySucceeds := by
  induction ss with
  | nil => rfl
  | cons st rest ih =>
    rw [loginLoop, List.findIdx?_cons]
    by_cases h1 : st.emailField = some true ∧ st.passwordField = some true ∧
        st.submitFound = true
    · by_cases h2 : ¬ st.outcome.urlHasLoginKeyword = true ∨
          st.outcome.dashboardMarker = true ∨ ¬ st.outcome.passwordVisible = true
      · have hs : strategySucceeds st = true := by
          simp only [strategySucceeds, decide_eq_true_eq]
          exact ⟨h1.1, h1.2.1, h1.2.2, h2⟩
        rw [if_pos h1, if_pos h2, if_pos hs]
      · have hs : ¬ strategySucceeds st = true := by
          simp only [strategySucceeds, decide_eq_true_eq]
          exact fun hc => h2 hc.2.2.2
        rw [if_pos h1, if_neg h2, if_neg hs, ih, List.findIdx?_succ]
    · have hs : ¬ strategySucceeds st = true := by
        simp only [strategySucceeds, decide_eq_true_eq]
        exact fun hc => h1 ⟨hc.1, hc.2.1, hc.2.2.1⟩
      rw [if_neg h1, if_neg hs, ih, List.findIdx?_succ]

/-- C3: the login resolver returns success at exactly the first strategy
whose email and password fields are found and visible, whose submit
control is found, and whose submission leaves some success indicator true
(URL free of login keywords, post-login marker present, or no visible
password field); a strategy with a missing field is passed over.  In the
scenario where strategy 1 lacks its email field and strategy 3 succeeds,
the winner is strategy 3 (index 2).  When every strategy fails, the whole
crawl aborts with an empty result. -/
theorem claim_C3_login_strategies :
    (∀ ss : List LoginStrategy, loginLoop ss = ss.findIdx? strategySucceeds) ∧
    (∀ ss : List LoginStrategy,
      login ss = true ↔ ∃ st ∈ ss, strategySucceeds st = true) ∧
    (loginLoop demoStrategies = some 2 ∧ login demoStrategies = true) ∧
    (∀ (w : World) (hf : String → Nat) (ss : List LoginStrategy)
       (startUrl : String) (mp : Nat),
      login ss = false → crawl_and_extract w hf ss startUrl mp = []) := by
  refine ⟨loginLoop_eq_findIdx, ?_, by decide, ?_⟩
  · intro ss
    rw [login, loginLoop_eq_findIdx, List.findIdx?_isSome, List.any_eq_true]
  · intro w hf ss startUrl mp hfail
    unfold crawl_and_extract
    rw [if_neg (by simp [hfail])]

/-- C3 witness: a strategy list whose single entry lacks its email field
makes the crawl return the empty result. -/
theorem claim_C3_witness :
    crawl_and_extract demoWorld demoHash [missingEmailStrategy] "start" 5 = [] :=
  claim_C3_login_strategies.2.2.2 demoWorld demoHash [missingEmailStrategy] "start" 5
    (by decide)

/-- C1: every crawl run processes at most `maxPages` distinct URLs — the
final visited set is duplicate-free, its size equals `processedCount`, and
`processedCount` never exceeds `maxPages`; and popping an already-visited
URL from the frontier skips it, leaving the visited set, the processed
count and the accumulator unchanged (only the frontier shrinks), so a URL
in `visitedUrls` is never processed again even when re-enqueued. -/
theorem claim_C1_budget_and_visited (w : World) (hf : String → Nat)
    (startUrl : String) (mp : Nat) :
    ((crawl_final_state w hf startUrl mp).visited.Nodup ∧
     (crawl_final_state w hf startUrl mp).visited.length =
       (crawl_final_state w hf startUrl mp).processed ∧
     (crawl_final_state w hf startUrl mp).processed ≤ mp) ∧
    (∀ (s : CrawlState) (u : String) (rest : List String),
      s.frontier = u :: rest → s.processed < mp → s.visited.contains u = true →
      crawlLoop w hf mp s = crawlLoop w hf mp { s with frontier := rest }) := by
  constructor
  · have h := crawlLoop_visited_inv w hf mp
      { visited := [], frontier := [startUrl], processed := 0, acc := [],
        currentUrl := startUrl } List.nodup_nil
    obtain ⟨h1, h2, h3⟩ := h
    unfold crawl_final_state
    exact ⟨h1, by simpa using h2, h3 (Nat.zero_le mp)⟩
  · exact fun s u rest => crawlLoop_skip_visited w hf mp s u rest

/-- C1 witness: over the demo world with a budget of 2, the final visited
set is duplicate-free and within budget, and a frontier whose head is
already visited is skipped with no other state change. -/
theorem claim_C1_witness :
    ((crawl_final_state demoWorld demoHash "start" 2).visited.Nodup ∧
     (crawl_final_state demoWorld demoHash "start" 2).visited.length =
       (crawl_final_state demoWorld demoHash "start" 2).processed ∧
     (crawl_final_state demoWorld demoHash "start" 2).processed ≤ 2) ∧
    crawlLoop demoWorld demoHash 2
      { visited := ["a"], frontier := ["a"], processed := 0, acc := [],
        currentUrl := "start" } =
    crawlLoop demoWorld demoHash 2
      { visited := ["a"], frontier := [], processed := 0, acc := [],
        currentUrl := "start" } := by
  refine ⟨(claim_C1_budget_and_visited demoWorld demoHash "start" 2).1, ?_⟩
  exact (claim_C1_budget_and_visited demoWorld demoHash "start" 2).2
    { visited := ["a"], frontier := ["a"], processed := 0, acc := [],
      currentUrl := "start" } "a" [] rfl (by decide) (by decide)

/-- C10: a frontier URL whose navigation raises is skipped without being
marked visited, without consuming budget and without touching the element
accumulator (only the frontier shrinks), so it may be processed later if
rediscovered; and every URL in the final visited set either navigated
successfully or was the start page the crawler was already on (the one
case where no navigation happens). -/
theorem claim_C10_navfail_consumes_nothing (w : World) (hf : String → Nat) (mp : Nat) :
    (∀ (s : CrawlState) (u : String) (rest : List String),
      s.frontier = u :: rest → s.processed < mp → ¬ s.visited.contains u = true →
      s.currentUrl ≠ u → w.navOk u = false →
      crawlLoop w hf mp s = crawlLoop w hf mp { s with frontier := rest }) ∧
    (∀ startUrl : String, ∀ u ∈ (crawl_final_state w hf startUrl mp).visited,
      w.navOk u = true ∨ u = startUrl) := by
  constructor
  · intro s u rest hfr hp hv hcur hno
    exact crawlLoop_skip_navfail w hf mp s u rest hfr hp hv ⟨hcur, by simp [hno]⟩
  · intro startUrl u hu
    rcases crawlLoop_visited_src w hf mp
      { visited := [], frontier := [startUrl], processed := 0, acc := [],
        currentUrl := startUrl } u hu with hin | hok | hcur
    · simp at hin
    · exact Or.inl hok
    · exact Or.inr hcur

/-- The demo crawl (budget 2) processes the start page, drops the
navigation-failing URL "bad", processes "page2" and stops: computed by
chaining the step equations, since the loop itself is defined by
well-founded recursion. -/
theorem demo_crawl_visited :
    (crawl_final_state demoWorld demoHash "start" 2).visited = ["start", "page2"] := by
  unfold crawl_final_state
  rw [crawlLoop_process _ _ _ _ "start" [] rfl (by decide) (by decide) (by decide),
      crawlLoop_skip_navfail _ _ _ _ "bad" ["page2"] (by decide) (by decide) (by decide)
        (by decide),
      crawlLoop_process _ _ _ _ "page2" [] (by decide) (by decide) (by decide)
        (by decide),
      crawlLoop_stop _ _ _ _ (by decide)]
  decide

/-- C10 witness: in the demo world, the URL "bad" (whose navigation fails)
is dropped from the frontier with no other state change, and each URL the
demo crawl visited navigated successfully or was the start page. -/
theorem claim_C10_witness :
    crawlLoop demoWorld demoHash 2
      { visited := [], frontier := ["bad"], processed := 0, acc := [],
        currentUrl := "start" } =
    crawlLoop demoWorld demoHash 2
      { visited := [], frontier := [], processed := 0, acc := [],
        currentUrl := "start" } ∧
    (demoWorld.navOk "page2" = true ∨ "page2" = "start") := by
  constructor
  · exact (claim_C10_navfail_consumes_nothing demoWorld demoHash 2).1
      { visited := [], frontier := ["bad"], processed := 0, acc := [],
        currentUrl := "start" } "bad" [] rfl (by decide) (by decide) (by decide)
      (by decide)
  · exact (claim_C10_navfail_consumes_nothing demoWorld demoHash 2).2 "start" "page2"
      (by rw [demo_crawl_visited]; decide)

/-- C2: in the per-page extraction result and in the final crawl result,
every element's id is non-empty and ids are pairwise distinct; each kept
element is the first element bearing its id in the underlying extraction
order (first-seen wins), and every extracted id is represented by some
kept element. -/
theorem claim_C2_id_uniqueness :
    (∀ (hf : String → Nat) (p : PageModel),
      (∀ e ∈ extract_form_elements hf p, e.id_of_input_component ≠ "") ∧
      ((extract_form_elements hf p).map (·.id_of_input_component)).Nodup ∧
      (∀ e ∈ extract_form_elements hf p,
        (rawPageElements hf p).find?
          (fun x => x.id_of_input_component == e.id_of_input_component) = some e) ∧
      (∀ x ∈ rawPageElements hf p, ∃ e ∈ extract_form_elements hf p,
        e.id_of_input_component = x.id_of_input_component)) ∧
    (∀ (w : World) (hf : String → Nat) (ss : List LoginStrategy)
       (startUrl : String) (mp : Nat),
      (∀ e ∈ crawl_and_extract w hf ss startUrl mp, e.id_of_input_component ≠ "") ∧
      ((crawl_and_extract w hf ss startUrl mp).map (·.id_of_input_component)).Nodup ∧
      (∀ e ∈ crawl_and_extract w hf ss startUrl mp,
        (crawl_final_state w hf startUrl mp).acc.find?
          (fun x => x.id_of_input_component == e.id_of_input_component) = some e)) := by
  constructor
  · intro hf p
    obtain ⟨hnd, hfind, hcov⟩ := dedupById_props (rawPageElements hf p)
    refine ⟨?_, hnd, hfind, hcov⟩
    intro e he
    exact rawPageElements_id_ne hf p e
      (mem_of_mem_dedupById (rawPageElements hf p) e he)
  · intro w hf ss startUrl mp
    by_cases hl : login ss = true
    · have hres : crawl_and_extract w hf ss startUrl mp =
          dedupById (crawl_final_state w hf startUrl mp).acc := by
        unfold crawl_and_extract
        rw [if_pos hl]
      obtain ⟨hnd, hfind, _⟩ :=
        dedupById_props (crawl_final_state w hf startUrl mp).acc
      rw [hres]
      refine ⟨?_, hnd, hfind⟩
      intro e he
      have hacc := mem_of_mem_dedupById _ e he
      rcases crawlLoop_acc_src w hf mp
        { visited := [], frontier := [startUrl], processed := 0, acc := [],
          currentUrl := startUrl } e hacc with hin | ⟨u, hu⟩
      · simp at hin
      · exact rawPageElements_id_ne hf (w.pages u) e
          (mem_of_mem_dedupById (rawPageElements hf (w.pages u)) e hu)
    · have hres : crawl_and_extract w hf ss startUrl mp = [] := by
        unfold crawl_and_extract
        rw [if_neg hl]
      rw [hres]
      simp

/-- C2 witness: the demo page's single extracted element has a non-empty
(synthesized) id. -/
theorem claim_C2_witness : demoTextElem.id_of_input_component ≠ "" :=
  (claim_C2_id_uniqueness.1 demoHash demoTextPage).1 demoTextElem (by decide)

/-- C7: a set of more than one visible, same-named checkboxes is collapsed
into exactly one emitted `FormElement` whose options are the members'
resolved labels; with pairwise distinct labels the options list has
exactly one entry per member (so three members give three options). -/
theorem claim_C7_checkbox_grouping (hf : String → Nat) (n : String)
    (m0 : Ctrl) (ms : List Ctrl) (ls : List String)
    (hn : n ≠ "") (hms : ms ≠ [])
    (hvis : ∀ m ∈ m0 :: ms, m.visible = true ∧ m.disabled = false ∧ m.nameAttr = some n)
    (hls : (m0 :: ms).map find_element_label = ls.map some)
    (hne : ∀ l ∈ ls, l ≠ "")
    (hnd : ls.Nodup) :
    ls.length = (m0 :: ms).length ∧
    ∃ d, extract_checkboxes hf (cbFamilyPage n (m0 :: ms)) = [d] ∧
      d.options = some ls := by
  have hlen : ls.length = (m0 :: ms).length := by
    have h := congrArg List.length hls
    simpa using h.symm
  refine ⟨hlen, ?_⟩
  cases ls with
  | nil => exact absurd hlen (by simp)
  | cons l0 ls' =>
    simp only [List.map_cons, List.cons.injEq] at hls
    obtain ⟨hl0, hlrest⟩ := hls
    have hv0 := hvis m0 (List.mem_cons_self _ _)
    cases hged : get_element_data hf m0 "checkbox" with
    | none =>
      unfold get_element_data at hged
      rw [hl0] at hged
      simp at hged
    | some d =>
      have hkey : groupKey m0 = some n := by
        unfold groupKey
        rw [hv0.2.2, if_pos (by simpa using (truthy_some_iff n).mpr hn)]
      have hbyname : (cbFamilyPage n (m0 :: ms)).byName (pyOr m0.nameAttr "") =
          m0 :: ms := by
        rw [hv0.2.2, pyOr_some_ne n "" hn]
        simp [cbFamilyPage]
      have hopts : checkboxGroupOptions (m0 :: ms) = l0 :: ls' := by
        unfold checkboxGroupOptions
        exact checkboxGroupOptionsGo_resolved (m0 :: ms) (l0 :: ls') []
          (by simp only [List.map_cons]; rw [hl0, hlrest])
          (fun m hm => (hvis m hm).1)
          (fun l hl => ⟨hne l hl, by simp⟩) hnd
      refine ⟨groupedCheckboxElem d (l0 :: ls'), ?_, rfl⟩
      unfold extract_checkboxes
      show checkboxGo hf (cbFamilyPage n (m0 :: ms)) (m0 :: ms) [] =
        [groupedCheckboxElem d (l0 :: ls')]
      rw [checkboxGo]
      rw [if_neg (by simp [hv0.1, hv0.2.1])]
      rw [if_neg (by simp)]
      simp only [hged]
      rw [if_neg (get_element_data_id_ne hf m0 "checkbox" d hged)]
      rw [if_pos (by rw [hv0.2.2]; exact (truthy_some_iff n).mpr hn)]
      rw [hbyname]
      rw [if_pos (by have h2 := List.length_pos.mpr hms; simp only [List.length_cons]; omega)]
      rw [hopts]
      rw [if_pos (by simp)]
      rw [hkey, pyOr_some_ne n "" hn]
      rw [checkboxGo_all_processed hf _ n hn ms ([] ++ [n])
            (fun m hm => (hvis m (List.mem_cons_of_mem _ hm)).2.2) (by simp)]

/-- C7 witness: three same-named visible checkboxes with distinct labels
"Aaa", "Bbb", "Ccc" collapse into one element with those three options. -/
theorem claim_C7_witness :
    (["Aaa", "Bbb", "Ccc"] : List String).length = ([cbA, cbB, cbC] : List Ctrl).length ∧
    ∃ d, extract_checkboxes (fun _ => 0) (cbFamilyPage "cbg" [cbA, cbB, cbC]) = [d] ∧
      d.options = some ["Aaa", "Bbb", "Ccc"] :=
  claim_C7_checkbox_grouping (fun _ => 0) "cbg" cbA [cbB, cbC] ["Aaa", "Bbb", "Ccc"]
    (by decide) (by decide) (by decide) (by decide) (by decide) (by decide)

/-- C8 counterexample: two visible radios share name "g" and both carry the
native value "A"; the claim's rule ("value when present, label otherwise")
would collect only "A", but the source falls back to the second radio's
resolved label when its value is already collected, so the emitted options
are ["A", "Label Two"]. -/
theorem claim_C8_counterexample :
    (∀ r ∈ [dupValueRadioA, dupValueRadioB], r.valueAttr = some "A" ∧
      r.visible = true) ∧
    (extract_radios (fun _ => 0)
        (radioFamilyPage "g" [dupValueRadioA, dupValueRadioB])).map
      (fun d => d.options) = [some ["A", "Label Two"]] ∧
    ¬ ([some ["A", "Label Two"]] = [(some ["A"] : Option (List String))] ∨
       [some ["A", "Label Two"]] = [(some ["A", "A"] : Option (List String))]) := by
  decide

/-- C8 (amended): the radio extractor emits at most one element per shared
name; when the first member survives data extraction, the group emits
exactly one element whose options are collected member-wise over the
`input[name=...]` group — a visible member's truthy `value` attribute is
used when not already collected, and otherwise (value absent, empty, or
already collected) its resolved label is used when it resolves, is
non-empty and not already collected — with the default
["Option 1", "Option 2"] when nothing was discoverable. -/
theorem claim_C8_radio_grouping (hf : String → Nat) (n : String) (ms : List Ctrl)
    (hname : ∀ m ∈ ms, m.nameAttr = some n) :
    (extract_radios hf (radioFamilyPage n ms)).length ≤ 1 ∧
    (∀ (r0 : Ctrl) (rs : List Ctrl), ms = r0 :: rs → n ≠ "" →
      r0.visible = true → r0.disabled = false →
      ∀ d, get_element_data hf r0 "radio" = some d →
        extract_radios hf (radioFamilyPage n ms) =
          [groupedRadioElem d (radioGroupOptions ms)]) := by
  constructor
  · unfold extract_radios
    show (radioGo hf (radioFamilyPage n ms) ms []).length ≤ 1
    exact radioGo_family_len hf (radioFamilyPage n ms) n ms hname
  · intro r0 rs hms hn hvis hdis d hged
    subst hms
    have hr0 := hname r0 (List.mem_cons_self _ _)
    have hpy : pyOr r0.nameAttr "" = n := by
      rw [hr0]
      exact pyOr_some_ne n "" hn
    have hbyname : (radioFamilyPage n (r0 :: rs)).byName n = r0 :: rs := by
      simp [radioFamilyPage]
    unfold extract_radios
    show radioGo hf (radioFamilyPage n (r0 :: rs)) (r0 :: rs) [] =
      [groupedRadioElem d (radioGroupOptions (r0 :: rs))]
    rw [radioGo]
    rw [if_neg (by simp [hvis, hdis])]
    rw [if_neg (by rw [hpy]; simp [hn])]
    rw [hpy, hbyname]
    simp only [hged]
    rw [if_neg (get_element_data_id_ne hf r0 "radio" d hged)]
    rw [radioGo_all_processed hf _ n rs ([] ++ [n])
          (fun m hm => hname m (List.mem_cons_of_mem _ hm)) (by simp)]

/-- C8 witness: the two-radio demo group emits exactly one element, built
from the first member's data and the member-wise option collection. -/
theorem claim_C8_witness :
    extract_radios (fun _ => 0) (radioFamilyPage "g" [dupValueRadioA, dupValueRadioB]) =
      [groupedRadioElem
        { label := "Label One", id_of_input_component := "g", required := false,
          type_of_input := "radio" }
        (radioGroupOptions [dupValueRadioA, dupValueRadioB])] :=
  (claim_C8_radio_grouping (fun _ => 0) "g" [dupValueRadioA, dupValueRadioB]
      (by decide)).2
    dupValueRadioA [dupValueRadioB] rfl (by decide) rfl rfl _ (by decide)

end WorkdayScraper
